import Mathlib

set_option maxHeartbeats 1000000

/-!
Verification development for the property-multi-agent repository.

The repository ships a React frontend (`frontend/src/components/ChatWidget.tsx`,
`frontend/src/pages/Index.tsx`, an api client module and the shared types) while
the Python backend (orchestrator, retriever, web-research and synthesis agents)
is described only by the specification.  This file gives a shallow embedding of
the frontend modules — stateful React code becomes explicit state passing, the
`fetch` effect becomes a parameter describing the outcome plus a record of the
requests issued — and, for the backend-side properties, definitions modelled
from the specification's words.  Theorems about the claims follow the
definitions.
-/

namespace Types

/-- Role of a chat turn (`frontend/src/types`: field `role` of `ChatMessage`,
the union `user | assistant`). -/
inductive Role where
  | user
  | assistant
  deriving DecidableEq, Repr

/-- The shared `ChatMessage` interface (`frontend/src/types`): `id`, `content`,
`role`, `timestamp` (a JS `Date`, modelled as a natural number of milliseconds). -/
structure ChatMessage where
  id : String
  content : String
  role : Role
  timestamp : Nat
  deriving DecidableEq, Repr

/-- The client module's `ApiResponse` interface (`frontend/src/types`):
`message : string`, `success : boolean`. -/
structure ApiResponse where
  message : String
  success : Bool
  deriving DecidableEq, Repr

end Types

/-- An HTTP request issued through `fetch`: the url, the method, and the JSON
body — `JSON.stringify` of an object literal, modelled as the ordered list of
the object's key/value pairs (all values in the repository's bodies are
strings). -/
structure FetchRequest where
  url : String
  method : String
  body : List (String × String)
  deriving DecidableEq, Repr

namespace Api

/-- Outcome of the `fetch` call inside `chatWithAgent`: the promise resolves
with an ok status (the parsed body's `response` field carried along), resolves
with a non-ok status (`statusText` carried along), or rejects with a network
error. -/
inductive FetchOutcome where
  | ok (response : String)
  | httpError (statusText : String)
  | networkError (message : String)
  deriving DecidableEq, Repr

/-- `const API_URL = "http://localhost:8000"` of the api client module. -/
def API_URL : String := "http://localhost:8000"

/-- The fixed fallback text returned by `chatWithAgent` on any failure. -/
def fallbackMessage : String :=
  "Sorry, I'm having trouble connecting to the server right now. Please try again later."

/-- What one call of `chatWithAgent` produces: the returned `ApiResponse`, the
requests it issued, and what it logged via `console.error`. -/
structure CallResult where
  result : Types.ApiResponse
  requests : List FetchRequest
  logs : List String
  deriving DecidableEq, Repr

/-- `chatWithAgent` of the api client module: posts `{ message }` to
`API_URL + "/chat"`; on an ok response returns `{ message: data.response,
success: true }`; on a non-ok status it throws, and the catch (which also
catches network errors) logs the error and returns the fixed fallback with
`success: false`. -/
def chatWithAgent (message : String) (outcome : FetchOutcome) : CallResult :=
  let req : FetchRequest :=
    { url := API_URL ++ "/chat", method := "POST", body := [("message", message)] }
  match outcome with
  | .ok response =>
      { result := { message := response, success := true },
        requests := [req], logs := [] }
  | .httpError statusText =>
      { result := { message := fallbackMessage, success := false },
        requests := [req],
        logs := ["Error chatting with agent: Error: " ++ statusText] }
  | .networkError m =>
      { result := { message := fallbackMessage, success := false },
        requests := [req],
        logs := ["Error chatting with agent: " ++ m] }

/-- JS `String.prototype.includes` as used by `mockChatWithAgent`: substring
containment. -/
def includes (hay needle : String) : Bool :=
  hay.data.tails.any (fun t => needle.data.isPrefixOf t)

/-- JS `String.prototype.toLowerCase` as used by `mockChatWithAgent` (ASCII
case mapping; the messages at hand have no further case-mapped characters). -/
def toLower (s : String) : String :=
  ⟨s.data.map Char.toLower⟩

/-- Reply of `mockChatWithAgent` for the hello/hi keyword group. -/
def greetingReply : String :=
  "Hello! I'm PropertyBot. How can I help you with your property search today?"

/-- Reply of `mockChatWithAgent` for the property/house/apartment keyword group. -/
def propertyReply : String :=
  "I can help you find properties based on location, price, number of bedrooms, and more. What are your requirements?"

/-- Reply of `mockChatWithAgent` for the price/cost/budget keyword group. -/
def priceReply : String :=
  "Properties in our database range from $150,000 to $5,000,000. What's your budget range?"

/-- Reply of `mockChatWithAgent` for the location/area/where keyword group. -/
def locationReply : String :=
  "We have properties in downtown areas, suburbs, and rural settings. Which area are you interested in?"

/-- Default reply of `mockChatWithAgent` when no keyword group matches. -/
def defaultReply : String :=
  "I'm here to help with your property search. You can ask me about available properties, pricing, locations, or specific features you're looking for."

/-- `mockChatWithAgent` of the api client module, with the simulated network
delay dropped (pure value): lowercases the message and picks the reply of the
first matching keyword group, `success` always `true`. -/
def mockChatWithAgent (message : String) : Types.ApiResponse :=
  let lowercaseMessage := toLower message
  if includes lowercaseMessage "hello" || includes lowercaseMessage "hi" then
    { message := greetingReply, success := true }
  else if includes lowercaseMessage "property" || includes lowercaseMessage "house"
      || includes lowercaseMessage "apartment" then
    { message := propertyReply, success := true }
  else if includes lowercaseMessage "price" || includes lowercaseMessage "cost"
      || includes lowercaseMessage "budget" then
    { message := priceReply, success := true }
  else if includes lowercaseMessage "location" || includes lowercaseMessage "area"
      || includes lowercaseMessage "where" then
    { message := locationReply, success := true }
  else
    { message := defaultReply, success := true }

end Api

namespace Widget

/-- The placeholder `price` field of the widget's `Property` interface
(`number | string`). -/
inductive PriceVal where
  | num (n : Int)
  | str (s : String)
  deriving DecidableEq, Repr

/-- The widget's placeholder `Property` interface. -/
structure Property where
  id : String
  name : String
  price : PriceVal
  location : Option String := none
  description : Option String := none
  image_url : Option String := none
  deriving DecidableEq, Repr

/-- The widget's placeholder `AdditionalInfo` interface (`summary?`; the
`Record<string, unknown>` extension is not modelled). -/
structure AdditionalInfo where
  summary : Option String := none
  deriving DecidableEq, Repr

/-- The inline type of the widget `ApiResponse`'s `additional_info` field:
`{ web_search_conducted?: boolean }`. -/
structure AdditionalFlags where
  web_search_conducted : Option Bool := none
  deriving DecidableEq, Repr

/-- The widget's local `ApiResponse` interface: the decoded shape of the
inbound endpoint's reply (`response`, `relevant_properties?`,
`web_search_data?`, `additional_info?`). -/
structure ApiResponse where
  response : String
  relevant_properties : Option (List Property) := none
  web_search_data : Option AdditionalInfo := none
  additional_info : Option AdditionalFlags := none
  deriving DecidableEq, Repr

/-- The widget's state hooks: `messages`, `inputValue`, `isLoading`,
`threadId` (null modelled as `none`). -/
structure WidgetState where
  messages : List Types.ChatMessage
  inputValue : String
  isLoading : Bool
  threadId : Option String
  deriving DecidableEq, Repr

/-- The welcome message the `messages` state is initialised with. -/
def welcomeMessage : Types.ChatMessage :=
  { id := "welcome-message",
    content := "Hello! I'm PropertyBot. How can I help you find your dream property today?",
    role := .assistant,
    timestamp := 0 }

/-- The widget's initial state: the welcome message, empty input, not loading,
`threadId` null. -/
def initialState : WidgetState :=
  { messages := [welcomeMessage], inputValue := "", isLoading := false, threadId := none }

/-- JS `String.prototype.trim` as called in `handleSendMessage` (ASCII
whitespace; the additional Unicode space characters JS also strips play no
role here): drop whitespace at both ends. -/
def jsTrim (s : String) : String :=
  ⟨((s.data.dropWhile Char.isWhitespace).reverse.dropWhile Char.isWhitespace).reverse⟩

/-- A toast shown through `useToast`. -/
structure Toast where
  title : String
  description : String
  variant : String
  deriving DecidableEq, Repr

/-- The fixed toast `handleSendMessage` shows when the request fails. -/
def errorToast : Toast :=
  { title := "Error",
    description := "Failed to connect to the property agent. Please try again.",
    variant := "destructive" }

/-- Outcome of the `fetch` call inside `handleSendMessage`: ok with a decoded
`ApiResponse` body, non-ok status (the local throw is caught by the same
handler as a network error), or a rejected promise. -/
inductive FetchOutcome where
  | ok (data : ApiResponse)
  | httpError (status : Nat)
  | networkError (message : String)
  deriving DecidableEq, Repr

/-- What one call of `handleSendMessage` produces: the final state, the
requests issued, the toasts shown, and the successive values the `messages`
state takes during the call (initial value first, one entry per `setMessages`
update). -/
structure SendResult where
  state : WidgetState
  requests : List FetchRequest
  toasts : List Toast
  msgTrace : List (List Types.ChatMessage)
  deriving DecidableEq, Repr

/-- The url `handleSendMessage` posts to. -/
def inquiryUrl : String := "http://localhost:8000/api/property/inquiry"

/-- The request `handleSendMessage` issues: `POST` of
`JSON.stringify({ query: inputValue, thread_id: threadId })` to `inquiryUrl`. -/
def inquiryRequest (query threadId : String) : FetchRequest :=
  { url := inquiryUrl, method := "POST",
    body := [("query", query), ("thread_id", threadId)] }

/-- `handleSendMessage` of `ChatWidget`: guard (`!inputValue.trim() ||
!threadId` returns at once), append the user message, clear the input, set
loading, post `{ query, thread_id }`; on success append the assistant message
with `content := data.response`; on failure show the fixed error toast; the
`finally` clears the loading flag.  The fresh `uuidv4()` values and `new
Date()` are parameters, the fetch outcome is a parameter. -/
def handleSendMessage (st : WidgetState) (userUuid botUuid : String) (now : Nat)
    (outcome : FetchOutcome) : SendResult :=
  if jsTrim st.inputValue = "" then
    { state := st, requests := [], toasts := [], msgTrace := [st.messages] }
  else
    match st.threadId with
    | none => { state := st, requests := [], toasts := [], msgTrace := [st.messages] }
    | some tid =>
      let userMessage : Types.ChatMessage :=
        { id := userUuid, content := st.inputValue, role := .user, timestamp := now }
      let afterUser := st.messages ++ [userMessage]
      let req := inquiryRequest st.inputValue tid
      match outcome with
      | .ok data =>
          let botMessage : Types.ChatMessage :=
            { id := botUuid, content := data.response, role := .assistant, timestamp := now }
          { state := { st with messages := afterUser ++ [botMessage],
                               inputValue := "", isLoading := false },
            requests := [req], toasts := [],
            msgTrace := [st.messages, afterUser, afterUser ++ [botMessage]] }
      | .httpError _ =>
          { state := { st with messages := afterUser, inputValue := "", isLoading := false },
            requests := [req], toasts := [errorToast],
            msgTrace := [st.messages, afterUser] }
      | .networkError _ =>
          { state := { st with messages := afterUser, inputValue := "", isLoading := false },
            requests := [req], toasts := [errorToast],
            msgTrace := [st.messages, afterUser] }

/-- The operations of the widget that touch its state: the `useEffect` body
(assigns a fresh uuid to `threadId` only when it is null), the input field's
`onChange` (sets `inputValue`), and a send. -/
inductive Event where
  | effect (fresh : String)
  | input (value : String)
  | send (userUuid botUuid : String) (now : Nat) (outcome : FetchOutcome)
  deriving Repr

/-- One widget operation: the next state and the requests it issued. -/
def stepEvent (st : WidgetState) : Event → WidgetState × List FetchRequest
  | .effect fresh =>
      (match st.threadId with
       | none => { st with threadId := some fresh }
       | some _ => st, [])
  | .input v => ({ st with inputValue := v }, [])
  | .send userUuid botUuid now outcome =>
      let r := handleSendMessage st userUuid botUuid now outcome
      (r.state, r.requests)

/-- A session: fold the events, collecting every request issued. -/
def runEvents (st : WidgetState) : List Event → WidgetState × List FetchRequest
  | [] => (st, [])
  | e :: es =>
      let s1 := stepEvent st e
      let s2 := runEvents s1.1 es
      (s2.1, s1.2 ++ s2.2)

end Widget

namespace Fmt

/-!
Embedding of the two regex replacements in `formatMessage` (ChatWidget.tsx).

First replacement: every markdown link, pattern
`\[([^\]]+)\]\(([^)]+)\)` (global), becomes
`<a href="URL" target="_blank" rel="noopener noreferrer">TEXT</a>`.

Second replacement: every anchor, pattern
`<a\s+href="([^"]+)"[^>]*>([^<]+)<\/a>` (global), becomes `[TEXT](URL)`.

Both patterns are backtracking-free: every repetition is a character class
that excludes the character the pattern requires next, so each match attempt
at a position is a deterministic maximal-run scan.  JS `replace` with the `g`
flag finds leftmost matches, emits the replacement, and resumes after the
matched portion without rescanning the replacement; the `…ReplaceAux`
functions below implement exactly that. -/

/-- Match of `\[([^\]]+)\]\(([^)]+)\)` at the start of the input: on success
the captured text, the captured url and the remainder after the match. -/
def matchMd (l : List Char) : Option (List Char × List Char × List Char) :=
  match l with
  | [] => none
  | c :: rest =>
    if c = '[' then
      let text := rest.takeWhile (fun x => x ≠ ']')
      match rest.dropWhile (fun x => x ≠ ']') with
      | ']' :: '(' :: rest2 =>
        let url := rest2.takeWhile (fun x => x ≠ ')')
        match rest2.dropWhile (fun x => x ≠ ')') with
        | ')' :: rest3 =>
          if text.isEmpty || url.isEmpty then none else some (text, url, rest3)
        | _ => none
      | _ => none
    else none

/-- The anchor the first replacement produces for a link. -/
def anchorLit (text url : List Char) : List Char :=
  "<a href=\"".data ++ url
    ++ "\" target=\"_blank\" rel=\"noopener noreferrer\">".data ++ text
    ++ "</a>".data

/-- Literal-prefix matcher: the remainder of `l` after the literal `lit`, when
`l` starts with it. -/
def dropLit (lit l : List Char) : Option (List Char) :=
  if lit.isPrefixOf l then some (l.drop lit.length) else none

/-- JS `\s` restricted to the ASCII whitespace characters (the Unicode space
characters JS also accepts play no role in the strings at hand). -/
def isJsSpace (c : Char) : Bool :=
  c = ' ' || c = '\t' || c = '\n' || c = '\r' || c = '\x0b' || c = '\x0c'

/-- Match of `<a\s+href="([^"]+)"[^>]*>([^<]+)<\/a>` at the start of the
input: on success the captured url, the captured text and the remainder. -/
def matchAnchor (l : List Char) : Option (List Char × List Char × List Char) :=
  match l with
  | c1 :: c2 :: rest =>
    if c1 = '<' && c2 = 'a' then
      if (rest.takeWhile isJsSpace).isEmpty then none
      else
        match dropLit "href=\"".data (rest.dropWhile isJsSpace) with
        | none => none
        | some rest2 =>
          let url := rest2.takeWhile (fun x => x ≠ '"')
          if url.isEmpty then none
          else
            match rest2.dropWhile (fun x => x ≠ '"') with
            | '"' :: rest3 =>
              match rest3.dropWhile (fun x => x ≠ '>') with
              | '>' :: rest4 =>
                let text := rest4.takeWhile (fun x => x ≠ '<')
                if text.isEmpty then none
                else
                  match dropLit "</a>".data (rest4.dropWhile (fun x => x ≠ '<')) with
                  | some rest5 => some (url, text, rest5)
                  | none => none
              | _ => none
            | _ => none
    else none
  | _ => none

/-- One step of the first `replace` of `formatMessage`, fuel-indexed so that
the recursion is structural (the fuel falls by one per scanned position; since
every match consumes at least one character, fuel equal to the input's length
is enough, and the wrapper `mdReplace` passes exactly that — the lemmas
`matchMd_rest_lt` and `mdReplaceF_plain` below make the accounting precise):
rewrite every markdown link to an anchor, scanning left to right, resuming
after each replacement without rescanning it, as JS `String.replace` with the
`g` flag does. -/
def mdReplaceF : Nat → List Char → List Char
  | _, [] => []
  | 0, l => l
  | fuel+1, c :: cs =>
    match matchMd (c :: cs) with
    | some (t, u, r) => anchorLit t u ++ mdReplaceF fuel r
    | none => c :: mdReplaceF fuel cs

/-- The second `replace` of `formatMessage`, fuel-indexed like `mdReplaceF`:
rewrite every anchor back to a markdown link, scanning left to right. -/
def anchorReplaceF : Nat → List Char → List Char
  | _, [] => []
  | 0, l => l
  | fuel+1, c :: cs =>
    match matchAnchor (c :: cs) with
    | some (u, t, r) => '[' :: t ++ ']' :: '(' :: u ++ ')' :: anchorReplaceF fuel r
    | none => c :: anchorReplaceF fuel cs

/-- The first `content.replace` of `formatMessage`. -/
def mdReplace (l : List Char) : List Char := mdReplaceF l.length l

/-- The second `replace` of `formatMessage`. -/
def anchorReplace (l : List Char) : List Char := anchorReplaceF l.length l

/-- `finalContent` as handed to the markdown renderer: the composition of the
two replacements. -/
def finalContent (content : String) : String :=
  ⟨anchorReplace (mdReplace content.data)⟩

/-- An abstract shape for `formatMessage` inputs: a content string cut into
plain-text segments and markdown links (the premise of the round-trip claim —
"whose only links are well-formed markdown links and which contains no
pre-existing HTML anchor tags" — is expressed by rendering such a segment
list). -/
inductive Seg where
  | plain (s : List Char)
  | link (text url : List Char)
  deriving DecidableEq, Repr

/-- The content string a segment list stands for: plain segments verbatim,
links in markdown form. -/
def render : List Seg → List Char
  | [] => []
  | .plain s :: segs => s ++ render segs
  | .link t u :: segs => '[' :: (t ++ (']' :: '(' :: (u ++ (')' :: render segs))))

/-- The intermediate string after the first replacement: plain segments
verbatim, links as anchors. -/
def renderA : List Seg → List Char
  | [] => []
  | .plain s :: segs => s ++ renderA segs
  | .link t u :: segs => anchorLit t u ++ renderA segs

/-- Side conditions under which the round trip is the identity: plain text
free of `[` (no stray link opener) and of `<` (no pre-existing anchor and no
text the anchor pattern could touch); link text nonempty, free of `]` (the
first pattern's capture) and of `<` (forced by the counterexample: the second
pattern's `([^<]+)` cannot read it back); link url nonempty, free of `)` (the
first pattern's capture) and of `"` (forced likewise: the second pattern's
`([^"]+)` would truncate it). -/
def goodSeg : Seg → Prop
  | .plain s => '[' ∉ s ∧ '<' ∉ s
  | .link t u => t ≠ [] ∧ ']' ∉ t ∧ '<' ∉ t ∧ u ≠ [] ∧ ')' ∉ u ∧ '"' ∉ u

instance goodSegDecidable : DecidablePred goodSeg
  | .plain s => inferInstanceAs (Decidable ('[' ∉ s ∧ '<' ∉ s))
  | .link t u =>
      inferInstanceAs (Decidable (t ≠ [] ∧ ']' ∉ t ∧ '<' ∉ t ∧ u ≠ [] ∧ ')' ∉ u ∧ '"' ∉ u))

/-- Fuel spent by one scan over a rendered segment list: one unit per plain
character, one per link (a match consumes the whole link in one step). -/
def segFuel : List Seg → Nat
  | [] => 0
  | .plain s :: segs => s.length + segFuel segs
  | .link _ _ :: segs => 1 + segFuel segs

end Fmt

namespace Backend

/-- Modelled from the spec: the backend's `PropertyRecord` (spec section 3); the
backend code is not part of the repository's files, only its contracts are
specified.  Scores and prices are exact rationals in the model. -/
structure PropertyRecord where
  id : String
  name : String
  price : ℚ
  location : String
  bedrooms : Nat
  amenities : List String
  description : String
  deriving DecidableEq, Repr

/-- Modelled from the spec: one ranked retrieval candidate, a record with its
similarity score in `[0,1]`. -/
structure Candidate where
  record : PropertyRecord
  score : ℚ
  deriving DecidableEq, Repr

/-- Modelled from the spec: `RetrievalResult` (spec section 3): the ordered
matches and the `hit` flag. -/
structure RetrievalResult where
  matches' : List Candidate
  hit : Bool
  deriving DecidableEq, Repr

/-- Modelled from the spec: the configured `relevance_threshold` (spec section
4.2, a configured constant). -/
structure RetrieverConfig where
  relevance_threshold : ℚ
  deriving DecidableEq, Repr

/-- Modelled from the spec: `hit = true` iff the top-1 filtered score is at
least the relevance threshold; an empty filtered list is a miss (spec section
4.2 and section 3's "at least one match clears the configured relevance
threshold"). -/
def computeHit (filtered : List Candidate) (threshold : ℚ) : Bool :=
  match filtered.head? with
  | some c => decide (threshold ≤ c.score)
  | none => false

/-- Modelled from the spec: the retriever applies structured filters before
truncating to top-`k`, and filtered-out candidates never count toward `hit`
(spec section 4.2). -/
def retrieve (candidates : List Candidate) (passes : Candidate → Bool) (k : Nat)
    (cfg : RetrieverConfig) : RetrievalResult :=
  let filtered := candidates.filter passes
  { matches' := filtered.take k,
    hit := computeHit filtered cfg.relevance_threshold }

/-- Modelled from the spec: `QueryIntent` (spec section 3), with the derived
judgment "intent flags an out-of-schema need" (spec section 4.5) carried as a
field. -/
structure QueryIntent where
  raw_text : String
  property_type : Option String := none
  location : Option String := none
  price_min : Option ℚ := none
  price_max : Option ℚ := none
  bedrooms : Option Nat := none
  amenities : List String := []
  reference_property_id : Option String := none
  confidence : ℚ := 0
  out_of_schema_need : Bool := false
  deriving DecidableEq, Repr

/-- Modelled from the spec: `WebEvidence` (spec section 3), the
`extracted_facts` mapping kept as key/value pairs. -/
structure WebEvidence where
  source_url : String
  snippet : String
  extracted_facts : List (String × String)
  fetched_at : Nat
  deriving DecidableEq, Repr

/-- Modelled from the spec: `AgentResponse` (spec section 3). -/
structure AgentResponse where
  text : String
  cited_properties : List String
  evidence_retrieval : Bool
  evidence_web : Bool
  deriving DecidableEq, Repr

/-- Modelled from the spec: the orchestrator's branch `RETRIEVED →
WEB_RESEARCHED` iff `retrieval.hit = false` or the intent flags an
out-of-schema need; otherwise `RETRIEVED → SKIPPED` (spec section 4.5). -/
def needsWebResearch (retrieval : RetrievalResult) (intent : QueryIntent) : Bool :=
  !retrieval.hit || intent.out_of_schema_need

/-- Modelled from the spec: the sentence the response must state when the Web
Research Agent returned zero evidence (spec section 8's escalation invariant:
"the response must state the limitation"). -/
def limitationNote : String :=
  " I could not find relevant external information for this query."

/-- Modelled from the spec: the synthesizer's structured output (spec sections
4.4 and 8): `evidence_used.web_search` is true exactly when the web step ran
and produced evidence; when the web step ran and produced zero evidence the
response states the limitation. -/
def synthesize (retrieval : RetrievalResult) (webEvidence : List WebEvidence)
    (webStepTaken : Bool) (base : String) : AgentResponse :=
  { text := if webStepTaken && webEvidence.isEmpty then base ++ limitationNote else base,
    cited_properties := retrieval.matches'.map (fun c => c.record.id),
    evidence_retrieval := !retrieval.matches'.isEmpty,
    evidence_web := webStepTaken && !webEvidence.isEmpty }

/-- Modelled from the spec: what one turn of the orchestrator decides after
retrieval: whether the web research step was taken, and the synthesized
response. -/
structure TurnResult where
  webStepTaken : Bool
  response : AgentResponse
  deriving DecidableEq, Repr

/-- Modelled from the spec: the orchestrator's `RETRIEVED → {WEB_RESEARCHED |
SKIPPED} → SYNTHESIZED` segment: branch on `needsWebResearch`, gather web
evidence only on the research branch (`research` is what the Web Research
Agent would return), then synthesize. -/
def runTurn (intent : QueryIntent) (retrieval : RetrievalResult)
    (research : List WebEvidence) (base : String) : TurnResult :=
  let webStep := needsWebResearch retrieval intent
  let webEvidence := if webStep then research else []
  { webStepTaken := webStep,
    response := synthesize retrieval webEvidence webStep base }

end Backend

/-! ## Shared helper lemmas -/

namespace Fmt

theorem length_dropWhile_le (p : Char → Bool) (l : List Char) :
    (l.dropWhile p).length ≤ l.length := by
  induction l with
  | nil => simp
  | cons c cs ih =>
    rw [List.dropWhile_cons]
    split
    · exact Nat.le_succ_of_le ih
    · simp

theorem dropLit_length_le {lit l r : List Char} (h : dropLit lit l = some r) :
    r.length ≤ l.length := by
  unfold dropLit at h
  split at h
  · cases h
    simp
  · cases h

theorem matchMd_rest_lt {l t u r : List Char} (h : matchMd l = some (t, u, r)) :
    r.length < l.length := by
  cases l with
  | nil => simp [matchMd] at h
  | cons c rest =>
    simp only [matchMd] at h
    split at h
    · split at h
      next rest2 heq =>
        split at h
        next rest3 heq2 =>
          split at h
          · cases h
          · cases h
            have e1 := congrArg List.length heq
            have l1 := length_dropWhile_le (fun x => decide (x ≠ ']')) rest
            have e2 := congrArg List.length heq2
            have l2 := length_dropWhile_le (fun x => decide (x ≠ ')')) rest2
            simp only [List.length_cons] at e1 e2
            simp only [List.length_cons]
            omega
        next => cases h
      next => cases h
    · cases h

theorem matchAnchor_rest_lt {l u t r : List Char}
    (h : matchAnchor l = some (u, t, r)) : r.length < l.length := by
  match l with
  | [] => simp [matchAnchor] at h
  | [c] => simp [matchAnchor] at h
  | c1 :: c2 :: rest =>
    simp only [matchAnchor] at h
    split at h
    · split at h
      · cases h
      · split at h
        next => cases h
        next rest2 heq =>
          split at h
          · cases h
          · split at h
            next rest3 heq2 =>
              split at h
              next rest4 heq3 =>
                split at h
                · cases h
                · split at h
                  next rest5 heq4 =>
                    cases h
                    have k1 : rest2.length ≤ rest.length := by
                      have a1 := dropLit_length_le heq
                      have a2 := length_dropWhile_le isJsSpace rest
                      omega
                    have e2 := congrArg List.length heq2
                    have l2 := length_dropWhile_le (fun x => decide (x ≠ '"')) rest2
                    have e3 := congrArg List.length heq3
                    have l3 := length_dropWhile_le (fun x => decide (x ≠ '>')) rest3
                    have k4 : r.length ≤ rest4.length := by
                      have a1 := dropLit_length_le heq4
                      have a2 := length_dropWhile_le (fun x => decide (x ≠ '<')) rest4
                      omega
                    simp only [List.length_cons] at e2 e3
                    simp only [List.length_cons]
                    omega
                  next => cases h
              next => cases h
            next => cases h
    · cases h

theorem takeWhile_append_stop {p : Char → Bool} {s : List Char} (c : Char) (r : List Char)
    (hs : ∀ x ∈ s, p x = true) (hc : p c = false) :
    (s ++ c :: r).takeWhile p = s := by
  induction s with
  | nil => simp [List.takeWhile_cons, hc]
  | cons a s ih =>
      have ha : p a = true := hs a (by simp)
      simp only [List.cons_append, List.takeWhile_cons, ha]
      simp only [if_true]
      rw [ih (fun x hx => hs x (by simp [hx]))]

theorem dropWhile_append_stop {p : Char → Bool} {s : List Char} (c : Char) (r : List Char)
    (hs : ∀ x ∈ s, p x = true) (hc : p c = false) :
    (s ++ c :: r).dropWhile p = c :: r := by
  induction s with
  | nil => simp [List.dropWhile_cons, hc]
  | cons a s ih =>
      have ha : p a = true := hs a (by simp)
      simp only [List.cons_append, List.dropWhile_cons, ha, if_true]
      exact ih (fun x hx => hs x (by simp [hx]))

theorem matchMd_none_of_head {c : Char} (cs : List Char) (h : c ≠ '[') :
    matchMd (c :: cs) = none := by
  simp [matchMd, h]

theorem matchAnchor_none_of_head {c : Char} (cs : List Char) (h : c ≠ '<') :
    matchAnchor (c :: cs) = none := by
  cases cs with
  | nil => simp [matchAnchor]
  | cons c2 r => simp [matchAnchor, h]

theorem matchMd_link (t u rest : List Char) (ht : t ≠ []) (ht2 : ']' ∉ t)
    (hu : u ≠ []) (hu2 : ')' ∉ u) :
    matchMd ('[' :: (t ++ (']' :: '(' :: (u ++ (')' :: rest))))) = some (t, u, rest) := by
  have hsat1 : ∀ x ∈ t, (fun x => decide (x ≠ ']')) x = true := by
    intro x hx
    simp only [decide_eq_true_eq]
    exact fun e => ht2 (e ▸ hx)
  have hstop1 : (fun x => decide (x ≠ ']')) ']' = false := by simp
  have hsat2 : ∀ x ∈ u, (fun x => decide (x ≠ ')')) x = true := by
    intro x hx
    simp only [decide_eq_true_eq]
    exact fun e => hu2 (e ▸ hx)
  have hstop2 : (fun x => decide (x ≠ ')')) ')' = false := by simp
  have he_t : t.isEmpty = false := by
    cases t with
    | nil => exact absurd rfl ht
    | cons a l => rfl
  have he_u : u.isEmpty = false := by
    cases u with
    | nil => exact absurd rfl hu
    | cons a l => rfl
  have e1 := takeWhile_append_stop (']') ('(' :: (u ++ (')' :: rest))) hsat1 hstop1
  have e2 := dropWhile_append_stop (']') ('(' :: (u ++ (')' :: rest))) hsat1 hstop1
  have e3 := takeWhile_append_stop (')') rest hsat2 hstop2
  have e4 := dropWhile_append_stop (')') rest hsat2 hstop2
  simp only [matchMd, e1, e2, e3, e4, he_t, he_u, Bool.or_self, Bool.false_or, reduceIte]
  rfl

theorem matchAnchor_anchor (t u rest : List Char) (ht : t ≠ []) (ht2 : '<' ∉ t)
    (hu : u ≠ []) (hu2 : '"' ∉ u) :
    matchAnchor (anchorLit t u ++ rest) = some (u, t, rest) := by
  have hre : anchorLit t u ++ rest =
      '<' :: 'a' :: ' ' :: 'h' :: 'r' :: 'e' :: 'f' :: '=' :: '"' ::
        (u ++ '"' :: (" target=\"_blank\" rel=\"noopener noreferrer\"".data ++
          '>' :: (t ++ '<' :: '/' :: 'a' :: '>' :: rest))) := by
    simp only [anchorLit, List.append_assoc]
    rfl
  have hsat1 : ∀ x ∈ u, (fun x => decide (x ≠ '"')) x = true := by
    intro x hx
    simp only [decide_eq_true_eq]
    exact fun e => hu2 (e ▸ hx)
  have hstop1 : (fun x => decide (x ≠ '"')) '"' = false := by simp
  have hsat2 : ∀ x ∈ t, (fun x => decide (x ≠ '<')) x = true := by
    intro x hx
    simp only [decide_eq_true_eq]
    exact fun e => ht2 (e ▸ hx)
  have hstop2 : (fun x => decide (x ≠ '<')) '<' = false := by simp
  have he_t : t.isEmpty = false := by
    cases t with
    | nil => exact absurd rfl ht
    | cons a l => rfl
  have he_u : u.isEmpty = false := by
    cases u with
    | nil => exact absurd rfl hu
    | cons a l => rfl
  have a1 : ∀ Y : List Char, List.takeWhile isJsSpace (' ' :: 'h' :: Y) = [' '] :=
    fun Y => rfl
  have a2 : ∀ Y : List Char, List.dropWhile isJsSpace (' ' :: 'h' :: Y) = 'h' :: Y :=
    fun Y => rfl
  have a3 : ∀ Z : List Char,
      dropLit "href=\"".data ('h' :: 'r' :: 'e' :: 'f' :: '=' :: '"' :: Z) = some Z :=
    fun Z => by simp [dropLit, List.isPrefixOf]
  have a4 : ∀ W : List Char,
      List.dropWhile (fun x => decide (x ≠ '>'))
        (" target=\"_blank\" rel=\"noopener noreferrer\"".data ++ '>' :: W) = '>' :: W :=
    fun W => rfl
  have a5 : ∀ W : List Char,
      dropLit "</a>".data ('<' :: '/' :: 'a' :: '>' :: W) = some W :=
    fun W => by simp [dropLit, List.isPrefixOf]
  have e1 := takeWhile_append_stop ('"')
    (" target=\"_blank\" rel=\"noopener noreferrer\"".data ++
      '>' :: (t ++ '<' :: '/' :: 'a' :: '>' :: rest)) hsat1 hstop1
  have e2 := dropWhile_append_stop ('"')
    (" target=\"_blank\" rel=\"noopener noreferrer\"".data ++
      '>' :: (t ++ '<' :: '/' :: 'a' :: '>' :: rest)) hsat1 hstop1
  have e3 := takeWhile_append_stop ('<') ('/' :: 'a' :: '>' :: rest) hsat2 hstop2
  have e4 := dropWhile_append_stop ('<') ('/' :: 'a' :: '>' :: rest) hsat2 hstop2
  rw [hre]
  simp only [matchAnchor, a1, a2, a3, a4, a5, e1, e2, e3, e4, he_t, he_u, reduceIte]
  rfl

theorem segFuel_le_render (segs : List Seg) : segFuel segs ≤ (render segs).length := by
  induction segs with
  | nil => simp [segFuel, render]
  | cons seg segs ih =>
      cases seg with
      | plain s => simp [segFuel, render]; omega
      | link t u => simp [segFuel, render]; omega

theorem segFuel_le_renderA (segs : List Seg) : segFuel segs ≤ (renderA segs).length := by
  induction segs with
  | nil => simp [segFuel, renderA]
  | cons seg segs ih =>
      cases seg with
      | plain s => simp [segFuel, renderA]; omega
      | link t u => simp [segFuel, renderA, anchorLit]; omega

theorem mdReplaceF_plain (s : List Char) (hs : '[' ∉ s) :
    ∀ (g : Nat) (l : List Char), mdReplaceF (s.length + g) (s ++ l) = s ++ mdReplaceF g l := by
  induction s with
  | nil => intro g l; simp
  | cons c s ih =>
      intro g l
      have hc : c ≠ '[' := fun e => hs (by simp [e])
      have hlen : (c :: s).length + g = (s.length + g) + 1 := by
        simp only [List.length_cons]
        omega
      rw [hlen]
      show mdReplaceF ((s.length + g) + 1) (c :: (s ++ l)) = (c :: s) ++ mdReplaceF g l
      simp only [mdReplaceF, matchMd_none_of_head _ hc]
      rw [ih (fun hmem => hs (List.mem_cons_of_mem c hmem)) g l]
      rfl

theorem anchorReplaceF_plain (s : List Char) (hs : '<' ∉ s) :
    ∀ (g : Nat) (l : List Char),
      anchorReplaceF (s.length + g) (s ++ l) = s ++ anchorReplaceF g l := by
  induction s with
  | nil => intro g l; simp
  | cons c s ih =>
      intro g l
      have hc : c ≠ '<' := fun e => hs (by simp [e])
      have hlen : (c :: s).length + g = (s.length + g) + 1 := by
        simp only [List.length_cons]
        omega
      rw [hlen]
      show anchorReplaceF ((s.length + g) + 1) (c :: (s ++ l)) = (c :: s) ++ anchorReplaceF g l
      simp only [anchorReplaceF, matchAnchor_none_of_head _ hc]
      rw [ih (fun hmem => hs (List.mem_cons_of_mem c hmem)) g l]
      rfl

theorem mdReplaceF_render (segs : List Seg) (h : ∀ seg ∈ segs, goodSeg seg) :
    ∀ g : Nat, mdReplaceF (segFuel segs + g) (render segs) = renderA segs := by
  induction segs with
  | nil => intro g; simp [segFuel, render, renderA, mdReplaceF]
  | cons seg segs ih =>
      intro g
      have hseg : goodSeg seg := h seg (by simp)
      have htail : ∀ s ∈ segs, goodSeg s := fun s hs => h s (by simp [hs])
      cases seg with
      | plain s =>
          obtain ⟨h1, _⟩ := hseg
          show mdReplaceF (s.length + segFuel segs + g) (s ++ render segs) =
            s ++ renderA segs
          rw [Nat.add_assoc, mdReplaceF_plain s h1 (segFuel segs + g) (render segs),
              ih htail g]
      | link t u =>
          obtain ⟨ht1, ht2, _, hu1, hu2, _⟩ := hseg
          have hlen : segFuel (.link t u :: segs) + g = (segFuel segs + g) + 1 := by
            simp only [segFuel]
            omega
          rw [hlen]
          show mdReplaceF ((segFuel segs + g) + 1)
              ('[' :: (t ++ (']' :: '(' :: (u ++ (')' :: render segs))))) =
            anchorLit t u ++ renderA segs
          simp only [mdReplaceF, matchMd_link t u (render segs) ht1 ht2 hu1 hu2]
          rw [ih htail g]

theorem anchorReplaceF_renderA (segs : List Seg) (h : ∀ seg ∈ segs, goodSeg seg) :
    ∀ g : Nat, anchorReplaceF (segFuel segs + g) (renderA segs) = render segs := by
  induction segs with
  | nil => intro g; simp [segFuel, renderA, render, anchorReplaceF]
  | cons seg segs ih =>
      intro g
      have hseg : goodSeg seg := h seg (by simp)
      have htail : ∀ s ∈ segs, goodSeg s := fun s hs => h s (by simp [hs])
      cases seg with
      | plain s =>
          obtain ⟨_, h2⟩ := hseg
          show anchorReplaceF (s.length + segFuel segs + g) (s ++ renderA segs) =
            s ++ render segs
          rw [Nat.add_assoc, anchorReplaceF_plain s h2 (segFuel segs + g) (renderA segs),
              ih htail g]
      | link t u =>
          obtain ⟨ht1, ht2t, ht2, hu1, hu2r, hu2⟩ := hseg
          have hlen : segFuel (.link t u :: segs) + g = (segFuel segs + g) + 1 := by
            simp only [segFuel]
            omega
          rw [hlen]
          have hre : anchorLit t u ++ renderA segs =
              '<' :: 'a' :: ' ' :: 'h' :: 'r' :: 'e' :: 'f' :: '=' :: '"' ::
                (u ++ '"' :: (" target=\"_blank\" rel=\"noopener noreferrer\"".data ++
                  '>' :: (t ++ '<' :: '/' :: 'a' :: '>' :: renderA segs))) := by
            simp only [anchorLit, List.append_assoc]
            rfl
          show anchorReplaceF ((segFuel segs + g) + 1) (anchorLit t u ++ renderA segs) =
            '[' :: (t ++ (']' :: '(' :: (u ++ (')' :: render segs))))
          rw [hre]
          simp only [anchorReplaceF]
          rw [← hre, matchAnchor_anchor t u (renderA segs) ht1 ht2 hu1 hu2]
          show '[' :: t ++ ']' :: '(' :: u ++ ')' ::
              anchorReplaceF (segFuel segs + g) (renderA segs) =
            '[' :: (t ++ (']' :: '(' :: (u ++ (')' :: render segs))))
          rw [ih htail g]
          simp [List.append_assoc, List.cons_append]

theorem roundtrip_render (segs : List Seg) (h : ∀ seg ∈ segs, goodSeg seg) :
    anchorReplace (mdReplace (render segs)) = render segs := by
  have h1 : mdReplace (render segs) = renderA segs := by
    unfold mdReplace
    obtain ⟨g, hg⟩ := Nat.le.dest (segFuel_le_render segs)
    rw [← hg]
    exact mdReplaceF_render segs h g
  have h2 : anchorReplace (renderA segs) = render segs := by
    unfold anchorReplace
    obtain ⟨g, hg⟩ := Nat.le.dest (segFuel_le_renderA segs)
    rw [← hg]
    exact anchorReplaceF_renderA segs h g
  rw [h1, h2]

end Fmt


theorem handleSendMessage_requests (st : Widget.WidgetState) (u b tid : String)
    (now : Nat) (o : Widget.FetchOutcome) (htid : st.threadId = some tid) :
    (Widget.handleSendMessage st u b now o).requests = [] ∨
    (Widget.handleSendMessage st u b now o).requests =
      [Widget.inquiryRequest st.inputValue tid] := by
  unfold Widget.handleSendMessage
  by_cases h : Widget.jsTrim st.inputValue = ""
  · rw [if_pos h]; left; rfl
  · rw [if_neg h, htid]
    cases o
    · right; rfl
    · right; rfl
    · right; rfl

theorem handleSendMessage_toasts (st : Widget.WidgetState) (u b : String)
    (now : Nat) (o : Widget.FetchOutcome) :
    (Widget.handleSendMessage st u b now o).toasts = [] ∨
    (Widget.handleSendMessage st u b now o).toasts = [Widget.errorToast] := by
  unfold Widget.handleSendMessage
  by_cases h : Widget.jsTrim st.inputValue = ""
  · rw [if_pos h]; left; rfl
  · rw [if_neg h]
    cases htid : st.threadId
    · left; rfl
    · cases o
      · left; rfl
      · right; rfl
      · right; rfl

theorem stepEvent_threadId_some {st : Widget.WidgetState} {t : String}
    (h : st.threadId = some t) (e : Widget.Event) :
    (Widget.stepEvent st e).1.threadId = some t ∧
    ∀ req ∈ (Widget.stepEvent st e).2,
      req.body.lookup "thread_id" = some t := by
  cases e with
  | effect fresh =>
      constructor
      · simp [Widget.stepEvent, h]
      · intro req hreq
        simp [Widget.stepEvent, h] at hreq
  | input v =>
      constructor
      · simpa [Widget.stepEvent] using h
      · intro req hreq
        simp [Widget.stepEvent] at hreq
  | send u b now o =>
      constructor
      · show (Widget.handleSendMessage st u b now o).state.threadId = some t
        unfold Widget.handleSendMessage
        by_cases hg : Widget.jsTrim st.inputValue = ""
        · rw [if_pos hg]; exact h
        · rw [if_neg hg, h]
          cases o
          · rfl
          · rfl
          · rfl
      · intro req hreq
        rcases handleSendMessage_requests st u b t now o h with hr | hr
        · rw [show (Widget.stepEvent st (.send u b now o)).2 =
              (Widget.handleSendMessage st u b now o).requests from rfl, hr] at hreq
          cases hreq
        · rw [show (Widget.stepEvent st (.send u b now o)).2 =
              (Widget.handleSendMessage st u b now o).requests from rfl, hr] at hreq
          simp at hreq
          rw [hreq]
          rfl

/-! ## Claims -/

/-- C1 (counterexample): the claim quantifies over every code path that calls
the backend, including `chatWithAgent`; but the request `chatWithAgent` issues
posts to `/chat` with the single body key `message` — its body holds no
`query` key and no `thread_id` key, so not every send carries the contract's
two fields. -/
theorem C1_chatWithAgent_counterexample :
    (Api.chatWithAgent "hello" (.ok "r")).requests =
      [{ url := "http://localhost:8000/chat", method := "POST",
         body := [("message", "hello")] }] ∧
    List.lookup "query" [(("message" : String), ("hello" : String))] = none ∧
    List.lookup "thread_id" [(("message" : String), ("hello" : String))] = none :=
  ⟨rfl, rfl, rfl⟩

/-- C1 (amended): every request the `ChatWidget` itself sends to the inbound
query endpoint carries exactly the contract's two fields — the JSON body is
`query` bound to the raw input text and `thread_id` bound to the thread's id —
while the separate (unused) client module `chatWithAgent` posts `message` to
`/chat` and does not follow this contract. -/
theorem C1_inquiry_body (st : Widget.WidgetState) (u b tid : String) (now : Nat)
    (o : Widget.FetchOutcome) (htid : st.threadId = some tid)
    (hne : Widget.jsTrim st.inputValue ≠ "") :
    (Widget.handleSendMessage st u b now o).requests =
      [{ url := "http://localhost:8000/api/property/inquiry", method := "POST",
         body := [("query", st.inputValue), ("thread_id", tid)] }] := by
  unfold Widget.handleSendMessage
  rw [if_neg hne, htid]
  cases o
  · rfl
  · rfl
  · rfl

/-- Witness for C1's amended theorem at a concrete state. -/
theorem C1_inquiry_body_witness :
    (Widget.handleSendMessage
        { messages := [], inputValue := "hi", isLoading := false, threadId := some "t-1" }
        "u-1" "b-1" 0 (.ok { response := "ok" })).requests =
      [{ url := "http://localhost:8000/api/property/inquiry", method := "POST",
         body := [("query", "hi"), ("thread_id", "t-1")] }] :=
  C1_inquiry_body _ "u-1" "b-1" "t-1" 0 _ rfl (by decide)

/-- C2: `chatWithAgent` is total by construction and never rethrows: `success`
is `true` exactly on the ok outcome; on a non-ok status or a network error it
returns the fixed plain-language fallback text (never the raw error, which is
only logged); and on a failed request `handleSendMessage` shows only the fixed
generic toast, never a toast derived from the error. -/
theorem C2_error_fallback :
    ∀ (m resp statusText err : String) (st : Widget.WidgetState)
      (u b : String) (now status : Nat) (d : Widget.ApiResponse),
      (Api.chatWithAgent m (.ok resp)).result =
        { message := resp, success := true } ∧
      (Api.chatWithAgent m (.httpError statusText)).result =
        { message := Api.fallbackMessage, success := false } ∧
      (Api.chatWithAgent m (.networkError err)).result =
        { message := Api.fallbackMessage, success := false } ∧
      (∀ o : Api.FetchOutcome,
        ((Api.chatWithAgent m o).result.success = true ↔ ∃ r, o = .ok r)) ∧
      ((Widget.handleSendMessage st u b now (.httpError status)).toasts = [] ∨
        (Widget.handleSendMessage st u b now (.httpError status)).toasts =
          [Widget.errorToast]) ∧
      ((Widget.handleSendMessage st u b now (.networkError err)).toasts = [] ∨
        (Widget.handleSendMessage st u b now (.networkError err)).toasts =
          [Widget.errorToast]) ∧
      (Widget.handleSendMessage st u b now (.ok d)).toasts = [] := by
  intro m resp statusText err st u b now status d
  refine ⟨rfl, rfl, rfl, ?_, ?_, ?_, ?_⟩
  · intro o
    cases o with
    | ok r => simp [Api.chatWithAgent]
    | httpError s => simp [Api.chatWithAgent]
    | networkError s => simp [Api.chatWithAgent]
  · exact handleSendMessage_toasts st u b now (.httpError status)
  · exact handleSendMessage_toasts st u b now (.networkError err)
  · unfold Widget.handleSendMessage
    by_cases h : Widget.jsTrim st.inputValue = ""
    · rw [if_pos h]
    · rw [if_neg h]
      cases st.threadId
      · rfl
      · rfl

/-- C3: the widget decodes the inbound endpoint's reply as the structure
`Widget.ApiResponse` — fields `response`, `relevant_properties`,
`web_search_data`, and `additional_info` with its `web_search_conducted`
flag — and on a successful response the assistant message appended to the
transcript carries exactly the value of the `response` field. -/
theorem C3_decode_response (st : Widget.WidgetState) (u b tid : String) (now : Nat)
    (d : Widget.ApiResponse) (htid : st.threadId = some tid)
    (hne : Widget.jsTrim st.inputValue ≠ "") :
    (Widget.handleSendMessage st u b now (.ok d)).state.messages =
      st.messages ++
        [{ id := u, content := st.inputValue, role := .user, timestamp := now },
         { id := b, content := d.response, role := .assistant, timestamp := now }] ∧
    d = { response := d.response, relevant_properties := d.relevant_properties,
          web_search_data := d.web_search_data, additional_info := d.additional_info } := by
  constructor
  · unfold Widget.handleSendMessage
    rw [if_neg hne, htid]
    simp
  · rfl

/-- Witness for C3 at a concrete state and reply. -/
theorem C3_decode_response_witness :
    (Widget.handleSendMessage
        { messages := [Widget.welcomeMessage], inputValue := "hi", isLoading := false,
          threadId := some "t-1" }
        "u-1" "b-1" 0
        (.ok { response := "Here are some condos.",
               additional_info := some { web_search_conducted := some false } })).state.messages =
      [Widget.welcomeMessage] ++
        [{ id := "u-1", content := "hi", role := .user, timestamp := 0 },
         { id := "b-1", content := "Here are some condos.", role := .assistant,
           timestamp := 0 }] :=
  (C3_decode_response _ "u-1" "b-1" "t-1" 0 _ rfl (by decide)).1

/-- C4: the transcript is an append-only log: during any `handleSendMessage`
call each successive value of the `messages` state is the previous value with
exactly one turn appended (so every earlier turn survives unchanged), the
trace starts at the incoming transcript and ends at the final one, and the
widget's other operations never touch the `messages` list. -/
theorem C4_append_only :
    ∀ (st : Widget.WidgetState) (u b : String) (now : Nat) (o : Widget.FetchOutcome)
      (fresh v : String),
      List.Chain' (fun l1 l2 => ∃ m, l2 = l1 ++ [m])
        (Widget.handleSendMessage st u b now o).msgTrace ∧
      (Widget.handleSendMessage st u b now o).msgTrace.head? = some st.messages ∧
      (Widget.handleSendMessage st u b now o).msgTrace.getLast? =
        some (Widget.handleSendMessage st u b now o).state.messages ∧
      (Widget.stepEvent st (.effect fresh)).1.messages = st.messages ∧
      (Widget.stepEvent st (.input v)).1.messages = st.messages := by
  intro st u b now o fresh v
  refine ⟨?_, ?_, ?_, ?_, ?_⟩
  · unfold Widget.handleSendMessage
    by_cases h : Widget.jsTrim st.inputValue = ""
    · rw [if_pos h]; simp
    · rw [if_neg h]
      cases st.threadId with
      | none => simp
      | some tid =>
        cases o with
        | ok d =>
            refine List.Chain'.cons ⟨_, rfl⟩ ?_
            exact List.Chain'.cons ⟨_, rfl⟩ (List.chain'_singleton _)
        | httpError s => exact List.Chain'.cons ⟨_, rfl⟩ (List.chain'_singleton _)
        | networkError s => exact List.Chain'.cons ⟨_, rfl⟩ (List.chain'_singleton _)
  · unfold Widget.handleSendMessage
    by_cases h : Widget.jsTrim st.inputValue = ""
    · rw [if_pos h]; rfl
    · rw [if_neg h]
      cases st.threadId with
      | none => rfl
      | some tid => cases o <;> rfl
  · unfold Widget.handleSendMessage
    by_cases h : Widget.jsTrim st.inputValue = ""
    · rw [if_pos h]; rfl
    · rw [if_neg h]
      cases st.threadId with
      | none => rfl
      | some tid => cases o <;> rfl
  · simp [Widget.stepEvent]
    cases st.threadId <;> rfl
  · rfl

/-- C5: the thread id is stable: the `useEffect` body assigns `threadId` only
when it is still null, and once it holds a value no widget operation ever
changes it — hence every request any later operation issues carries that same
`thread_id` value in its body. -/
theorem C5_thread_id_stable :
    ∀ (st : Widget.WidgetState) (t : String) (evs : List Widget.Event),
      (∀ fresh, st.threadId = none →
        (Widget.stepEvent st (.effect fresh)).1.threadId = some fresh) ∧
      (st.threadId = some t →
        (Widget.runEvents st evs).1.threadId = some t ∧
        ∀ req ∈ (Widget.runEvents st evs).2,
          req.body.lookup "thread_id" = some t) := by
  intro st t evs
  constructor
  · intro fresh hnone
    simp [Widget.stepEvent, hnone]
  · intro h
    induction evs generalizing st with
    | nil => exact ⟨h, by intro req hreq; cases hreq⟩
    | cons e es ih =>
      have step := stepEvent_threadId_some h e
      have tail := ih (Widget.stepEvent st e).1 step.1
      constructor
      · show (Widget.runEvents (Widget.stepEvent st e).1 es).1.threadId = some t
        exact tail.1
      · intro req hreq
        have : req ∈ (Widget.stepEvent st e).2 ++
            (Widget.runEvents (Widget.stepEvent st e).1 es).2 := hreq
        rcases List.mem_append.mp this with hin | hin
        · exact step.2 req hin
        · exact tail.2 req hin

/-- C6 (spec-modelled): `hit` is true iff the top-1 filtered candidate's score
is at least `relevance_threshold`; a candidate exactly at the threshold is a
hit, one strictly below is a miss, an empty filtered list is a miss, and
`retrieve` computes `hit` from the filtered candidates this way. -/
theorem C6_hit_threshold :
    ∀ (c : Backend.Candidate) (rest cands : List Backend.Candidate) (th : ℚ)
      (passes : Backend.Candidate → Bool) (k : Nat),
      (Backend.computeHit (c :: rest) th = true ↔ th ≤ c.score) ∧
      (Backend.computeHit ({ record := c.record, score := th } :: rest) th = true) ∧
      (c.score < th → Backend.computeHit (c :: rest) th = false) ∧
      (Backend.computeHit [] th = false) ∧
      ((Backend.retrieve cands passes k { relevance_threshold := th }).hit =
        Backend.computeHit (cands.filter passes) th) := by
  intro c rest cands th passes k
  refine ⟨?_, ?_, ?_, rfl, rfl⟩
  · simp [Backend.computeHit]
  · simp [Backend.computeHit]
  · intro hlt
    simp [Backend.computeHit]
    linarith

/-- C7 (spec-modelled): when `retrieval.hit = false` the web research step is
taken, and the final response reports `evidence_used.web_search = true` unless
the Web Research Agent returned zero evidence, in which case the response
states the limitation; when `hit = true` and the intent flags no out-of-schema
need, the web step is skipped and `evidence_used.web_search = false`. -/
theorem C7_escalation :
    ∀ (intent : Backend.QueryIntent) (retrieval : Backend.RetrievalResult)
      (research : List Backend.WebEvidence) (base : String),
      (retrieval.hit = false →
        (Backend.runTurn intent retrieval research base).webStepTaken = true ∧
        (research ≠ [] →
          (Backend.runTurn intent retrieval research base).response.evidence_web = true) ∧
        (research = [] →
          (Backend.runTurn intent retrieval research base).response.text =
            base ++ Backend.limitationNote)) ∧
      (retrieval.hit = true → intent.out_of_schema_need = false →
        (Backend.runTurn intent retrieval research base).webStepTaken = false ∧
        (Backend.runTurn intent retrieval research base).response.evidence_web = false ∧
        (Backend.runTurn intent retrieval research base).response.text = base) := by
  intro intent retrieval research base
  constructor
  · intro hmiss
    refine ⟨?_, ?_, ?_⟩
    · simp [Backend.runTurn, Backend.needsWebResearch, hmiss]
    · intro hne
      simp [Backend.runTurn, Backend.needsWebResearch, Backend.synthesize, hmiss, hne]
    · intro hre
      simp [Backend.runTurn, Backend.needsWebResearch, Backend.synthesize, hmiss, hre]
  · intro hhit hschema
    refine ⟨?_, ?_, ?_⟩
    · simp [Backend.runTurn, Backend.needsWebResearch, hhit, hschema]
    · simp [Backend.runTurn, Backend.needsWebResearch, Backend.synthesize, hhit, hschema]
    · simp [Backend.runTurn, Backend.needsWebResearch, Backend.synthesize, hhit, hschema]

/-- C8: empty-input no-op: when the input is empty or whitespace-only, or no
thread id has been assigned yet, `handleSendMessage` issues no request, shows
no toast, and leaves the entire widget state unchanged. -/
theorem C8_empty_input_noop (st : Widget.WidgetState) (u b : String) (now : Nat)
    (o : Widget.FetchOutcome)
    (h : Widget.jsTrim st.inputValue = "" ∨ st.threadId = none) :
    (Widget.handleSendMessage st u b now o).state = st ∧
    (Widget.handleSendMessage st u b now o).requests = [] ∧
    (Widget.handleSendMessage st u b now o).toasts = [] := by
  unfold Widget.handleSendMessage
  rcases h with h | h
  · rw [if_pos h]; exact ⟨rfl, rfl, rfl⟩
  · by_cases h2 : Widget.jsTrim st.inputValue = ""
    · rw [if_pos h2]; exact ⟨rfl, rfl, rfl⟩
    · rw [if_neg h2, h]; exact ⟨rfl, rfl, rfl⟩

/-- Witness for C8 at a concrete whitespace-only input. -/
theorem C8_empty_input_noop_witness :
    (Widget.handleSendMessage
        { messages := [Widget.welcomeMessage], inputValue := "   ", isLoading := false,
          threadId := some "t-1" } "u-1" "b-1" 0 (.ok { response := "r" })).state =
      { messages := [Widget.welcomeMessage], inputValue := "   ", isLoading := false,
        threadId := some "t-1" } :=
  (C8_empty_input_noop _ "u-1" "b-1" 0 _ (Or.inl (by decide))).1

/-- C10: `mockChatWithAgent` is total and deterministic: it always returns
`success = true`, and the reply is selected by the first matching keyword
group of the lowercased message in the fixed order hello/hi, then
property/house/apartment, then price/cost/budget, then location/area/where,
with the fixed default otherwise; in particular a message containing both
"hello" and "property" receives the greeting reply. -/
theorem C10_mock_total :
    ∀ m : String,
      (Api.mockChatWithAgent m).success = true ∧
      ((Api.includes (Api.toLower m) "hello" || Api.includes (Api.toLower m) "hi") = true →
        (Api.mockChatWithAgent m).message = Api.greetingReply) ∧
      ((Api.includes (Api.toLower m) "hello" || Api.includes (Api.toLower m) "hi") = false →
        (Api.includes (Api.toLower m) "property" || Api.includes (Api.toLower m) "house"
          || Api.includes (Api.toLower m) "apartment") = true →
        (Api.mockChatWithAgent m).message = Api.propertyReply) ∧
      ((Api.includes (Api.toLower m) "hello" || Api.includes (Api.toLower m) "hi") = false →
        (Api.includes (Api.toLower m) "property" || Api.includes (Api.toLower m) "house"
          || Api.includes (Api.toLower m) "apartment") = false →
        (Api.includes (Api.toLower m) "price" || Api.includes (Api.toLower m) "cost"
          || Api.includes (Api.toLower m) "budget") = true →
        (Api.mockChatWithAgent m).message = Api.priceReply) ∧
      ((Api.includes (Api.toLower m) "hello" || Api.includes (Api.toLower m) "hi") = false →
        (Api.includes (Api.toLower m) "property" || Api.includes (Api.toLower m) "house"
          || Api.includes (Api.toLower m) "apartment") = false →
        (Api.includes (Api.toLower m) "price" || Api.includes (Api.toLower m) "cost"
          || Api.includes (Api.toLower m) "budget") = false →
        (Api.includes (Api.toLower m) "location" || Api.includes (Api.toLower m) "area"
          || Api.includes (Api.toLower m) "where") = true →
        (Api.mockChatWithAgent m).message = Api.locationReply) ∧
      ((Api.includes (Api.toLower m) "hello" || Api.includes (Api.toLower m) "hi") = false →
        (Api.includes (Api.toLower m) "property" || Api.includes (Api.toLower m) "house"
          || Api.includes (Api.toLower m) "apartment") = false →
        (Api.includes (Api.toLower m) "price" || Api.includes (Api.toLower m) "cost"
          || Api.includes (Api.toLower m) "budget") = false →
        (Api.includes (Api.toLower m) "location" || Api.includes (Api.toLower m) "area"
          || Api.includes (Api.toLower m) "where") = false →
        (Api.mockChatWithAgent m).message = Api.defaultReply) ∧
      Api.mockChatWithAgent "hello property" =
        { message := Api.greetingReply, success := true } := by
  intro m
  refine ⟨?_, ?_, ?_, ?_, ?_, ?_, by decide⟩
  · simp only [Api.mockChatWithAgent]
    repeat' split
    all_goals rfl
  · intro h1
    simp [Api.mockChatWithAgent, h1]
  · intro h1 h2
    simp [Api.mockChatWithAgent, h1, h2]
  · intro h1 h2 h3
    simp [Api.mockChatWithAgent, h1, h2, h3]
  · intro h1 h2 h3 h4
    simp [Api.mockChatWithAgent, h1, h2, h3, h4]
  · intro h1 h2 h3 h4
    simp [Api.mockChatWithAgent, h1, h2, h3, h4]

/-- C9 (counterexample): the round trip fails on a well-formed markdown link
whose text contains a `<` and that stands in a string with no pre-existing
anchor tag: the first replacement turns `[a<b](u)` into an anchor whose
rendered text contains `<`, which the second pattern's `([^<]+)` cannot match,
so the anchor survives as HTML and the composition is not the identity. -/
theorem C9_roundtrip_counterexample :
    Fmt.finalContent "[a<b](u)" ≠ "[a<b](u)" := by decide

/-- C9 (amended): for every content string assembled from plain segments free
of `[` and `<` (in particular containing no pre-existing anchor tag) and
well-formed markdown links whose text is nonempty and free of `]` and `<` and
whose url is nonempty and free of `)` and `"`, the two successive regex
replacements of `formatMessage` compose to the identity, so the string handed
to the markdown renderer equals the original content. -/
theorem C9_roundtrip (segs : List Fmt.Seg) (h : ∀ seg ∈ segs, Fmt.goodSeg seg) :
    Fmt.finalContent ⟨Fmt.render segs⟩ = ⟨Fmt.render segs⟩ := by
  show String.mk (Fmt.anchorReplace (Fmt.mdReplace (Fmt.render segs))) =
    String.mk (Fmt.render segs)
  rw [Fmt.roundtrip_render segs h]

/-- Witness for C9's amended theorem at a concrete segment list. -/
theorem C9_roundtrip_witness :
    Fmt.finalContent ⟨Fmt.render [Fmt.Seg.plain "See ".data,
      Fmt.Seg.link "the site".data "http://example.com".data,
      Fmt.Seg.plain " for details.".data]⟩ =
    ⟨Fmt.render [Fmt.Seg.plain "See ".data,
      Fmt.Seg.link "the site".data "http://example.com".data,
      Fmt.Seg.plain " for details.".data]⟩ :=
  C9_roundtrip _ (by decide)
